import Mathlib

/-!
Verification of the singcraft proxy-configuration toolkit: a shallow embedding
of the link decoder (vless.ts), protocol dispatcher and batch coordinator
(index.ts), the AmneziaWG .conf decoder (awg.ts), the XRay/Amnezia JSON
decoder (amnezia.ts) and the config assembler (builder.ts), together with
theorems settling the specification claims.

JavaScript strings are modelled as Lean strings (lists of characters); the
link inputs of interest are ASCII so UTF-16 code-unit effects do not arise.
Platform string builtins (trim, split, lastIndexOf, parseInt,
decodeURIComponent, URLSearchParams) are modelled below following their
ECMAScript / WHATWG semantics.
-/

set_option maxRecDepth 100000

namespace Singcraft

/-- Whitespace as recognised by JavaScript trim and parseInt. -/
def wsChar (c : Char) : Bool :=
  c == ' ' || c == '\t' || c == '\n' || c == '\r' || c == '\x0b' || c == '\x0c' ||
  c == '\xa0' || c == '\u2028' || c == '\u2029' || c == '\uFEFF'

/-- Drop the longest suffix whose characters all satisfy the test. -/
def dropEndWhile (p : Char → Bool) : List Char → List Char
  | [] => []
  | c :: rest =>
    let r := dropEndWhile p rest
    if r.isEmpty && p c then [] else c :: r

/-- Strip leading and trailing JavaScript whitespace from a character list. -/
def trimChars (l : List Char) : List Char :=
  dropEndWhile wsChar (l.dropWhile wsChar)

/-- JavaScript String.trim. -/
def jsTrim (s : String) : String := ⟨trimChars s.data⟩

/-- startsWith on character lists: the second argument is the candidate starting segment. -/
def startsWithList : List Char → List Char → Bool
  | _, [] => true
  | [], _ :: _ => false
  | c :: cs, p :: ps => c == p && startsWithList cs ps

/-- JavaScript String.startsWith. -/
def strStartsWith (s pre : String) : Bool := startsWithList s.data pre.data

/-- Split a character list on a single separator character (JavaScript split with a
one-character separator). -/
def splitOnChar (sep : Char) : List Char → List (List Char)
  | [] => [[]]
  | c :: rest =>
    match splitOnChar sep rest with
    | [] => if c == sep then [[], []] else [[c]]
    | h :: t => if c == sep then [] :: h :: t else (c :: h) :: t

/-- Index of the first occurrence of a character (JavaScript indexOf). -/
def idxOfChar (c : Char) : List Char → Option Nat
  | [] => none
  | d :: rest => if d == c then some 0 else (idxOfChar c rest).map (· + 1)

/-- Index of the last occurrence of a character (JavaScript lastIndexOf). -/
def lastIdxOfChar (c : Char) : List Char → Option Nat
  | [] => none
  | d :: rest =>
    match lastIdxOfChar c rest with
    | some i => some (i + 1)
    | none => if d == c then some 0 else none

/-- ASCII lower-casing of one character, as applied by toLowerCase on the inputs
that occur here. -/
def jsLowerChar (c : Char) : Char :=
  if 'A' ≤ c && c ≤ 'Z' then Char.ofNat (c.toNat + 32) else c

/-- JavaScript String.toLowerCase (ASCII fragment). -/
def jsToLower (s : String) : String := ⟨s.data.map jsLowerChar⟩

/-- Value of a hexadecimal digit. -/
def hexVal (c : Char) : Option Nat :=
  if '0' ≤ c && c ≤ '9' then some (c.toNat - 48)
  else if 'a' ≤ c && c ≤ 'f' then some (c.toNat - 87)
  else if 'A' ≤ c && c ≤ 'F' then some (c.toNat - 55)
  else none

/-- UTF-8 encoding of one code point. -/
def utf8EncodeChar (c : Char) : List Nat :=
  let n := c.toNat
  if n < 0x80 then [n]
  else if n < 0x800 then [0xC0 + n / 64, 0x80 + n % 64]
  else if n < 0x10000 then [0xE0 + n / 4096, 0x80 + (n / 64) % 64, 0x80 + n % 64]
  else [0xF0 + n / 262144, 0x80 + (n / 4096) % 64, 0x80 + (n / 64) % 64, 0x80 + n % 64]

/-- Does a byte have the continuation-byte shape 10xxxxxx. -/
def isContByte (b : Nat) : Bool := 0x80 ≤ b && b < 0xC0

/-- Strict UTF-8 decoding: any malformed sequence (stray continuation, overlong
form, surrogate, out-of-range lead) fails, as in the ECMAScript URI decoder. -/
def utf8DecodeStrict : List Nat → Option (List Char)
  | [] => some []
  | b :: rest =>
    if b < 0x80 then
      (utf8DecodeStrict rest).map (fun cs => Char.ofNat b :: cs)
    else if b < 0xC2 then none
    else if b < 0xE0 then
      match rest with
      | b2 :: rest2 =>
        if isContByte b2 then
          (utf8DecodeStrict rest2).map (fun cs =>
            Char.ofNat ((b - 0xC0) * 64 + (b2 - 0x80)) :: cs)
        else none
      | [] => none
    else if b < 0xF0 then
      match rest with
      | b2 :: b3 :: rest3 =>
        if isContByte b2 && isContByte b3 && !(b == 0xE0 && b2 < 0xA0) then
          let cp := (b - 0xE0) * 4096 + (b2 - 0x80) * 64 + (b3 - 0x80)
          if 0xD800 ≤ cp && cp ≤ 0xDFFF then none
          else (utf8DecodeStrict rest3).map (fun cs => Char.ofNat cp :: cs)
        else none
      | _ => none
    else if b < 0xF5 then
      match rest with
      | b2 :: b3 :: b4 :: rest4 =>
        if isContByte b2 && isContByte b3 && isContByte b4 &&
            !(b == 0xF0 && b2 < 0x90) && !(b == 0xF4 && 0x90 ≤ b2) then
          (utf8DecodeStrict rest4).map (fun cs =>
            Char.ofNat ((b - 0xF0) * 262144 + (b2 - 0x80) * 4096 +
              (b3 - 0x80) * 64 + (b4 - 0x80)) :: cs)
        else none
      | _ => none
    else none

/-- Lenient UTF-8 decoding, fuelled so that the recursion is structural (each
step consumes at least one byte, so the byte count is sufficient fuel):
malformed bytes become U+FFFD, as in the WHATWG form-urlencoded decoder used
by URLSearchParams. -/
def utf8DecodeLenientGo : Nat → List Nat → List Char
  | 0, _ => []
  | _ + 1, [] => []
  | fuel + 1, b :: rest =>
    if b < 0x80 then Char.ofNat b :: utf8DecodeLenientGo fuel rest
    else if b < 0xC2 then '\uFFFD' :: utf8DecodeLenientGo fuel rest
    else if b < 0xE0 then
      match rest with
      | b2 :: rest2 =>
        if isContByte b2 then
          Char.ofNat ((b - 0xC0) * 64 + (b2 - 0x80)) :: utf8DecodeLenientGo fuel rest2
        else '\uFFFD' :: utf8DecodeLenientGo fuel (b2 :: rest2)
      | [] => ['\uFFFD']
    else if b < 0xF0 then
      match rest with
      | b2 :: b3 :: rest3 =>
        if isContByte b2 && isContByte b3 && !(b == 0xE0 && b2 < 0xA0) then
          let cp := (b - 0xE0) * 4096 + (b2 - 0x80) * 64 + (b3 - 0x80)
          if 0xD800 ≤ cp && cp ≤ 0xDFFF then '\uFFFD' :: utf8DecodeLenientGo fuel (b2 :: b3 :: rest3)
          else Char.ofNat cp :: utf8DecodeLenientGo fuel rest3
        else '\uFFFD' :: utf8DecodeLenientGo fuel (b2 :: b3 :: rest3)
      | _ => ['\uFFFD']
    else if b < 0xF5 then
      match rest with
      | b2 :: b3 :: b4 :: rest4 =>
        if isContByte b2 && isContByte b3 && isContByte b4 &&
            !(b == 0xF0 && b2 < 0x90) && !(b == 0xF4 && 0x90 ≤ b2) then
          Char.ofNat ((b - 0xF0) * 262144 + (b2 - 0x80) * 4096 +
            (b3 - 0x80) * 64 + (b4 - 0x80)) :: utf8DecodeLenientGo fuel rest4
        else '\uFFFD' :: utf8DecodeLenientGo fuel (b2 :: b3 :: b4 :: rest4)
      | _ => ['\uFFFD']
    else '\uFFFD' :: utf8DecodeLenientGo fuel rest

/-- Lenient UTF-8 decoding of a byte list. -/
def utf8DecodeLenient (l : List Nat) : List Char :=
  utf8DecodeLenientGo l.length l

/-- Percent-decoding to bytes, strict variant: a percent sign not followed by
two hexadecimal digits is an error (URIError in decodeURIComponent). -/
def pctDecodeStrict : List Char → Option (List Nat)
  | [] => some []
  | '%' :: h1 :: h2 :: rest =>
    match hexVal h1, hexVal h2 with
    | some a, some b => (pctDecodeStrict rest).map (fun bs => (a * 16 + b) :: bs)
    | _, _ => none
  | '%' :: _ => none
  | c :: rest => (pctDecodeStrict rest).map (fun bs => utf8EncodeChar c ++ bs)

/-- Percent-decoding to bytes, lenient variant: a percent sign not followed by
two hexadecimal digits stays literal (URLSearchParams behaviour). -/
def pctDecodeLenient : List Char → List Nat
  | [] => []
  | '%' :: h1 :: h2 :: rest =>
    match hexVal h1, hexVal h2 with
    | some a, some b => (a * 16 + b) :: pctDecodeLenient rest
    | _, _ => 0x25 :: pctDecodeLenient (h1 :: h2 :: rest)
  | '%' :: rest => 0x25 :: pctDecodeLenient rest
  | c :: rest => utf8EncodeChar c ++ pctDecodeLenient rest

/-- JavaScript decodeURIComponent; none models a thrown URIError. -/
def decodeURIComponentOpt (s : String) : Option String :=
  (pctDecodeStrict s.data).bind (fun bs => (utf8DecodeStrict bs).map (fun cs => ⟨cs⟩))

/-- application/x-www-form-urlencoded decoding of one token, as applied by
URLSearchParams to keys and values. -/
def formDecodeL (l : List Char) : String :=
  ⟨utf8DecodeLenient (pctDecodeLenient (l.map (fun c => if c == '+' then ' ' else c)))⟩

/-- Split one query piece at its first equals sign and decode both sides. -/
def querySplitKV (piece : List Char) : String × String :=
  match idxOfChar '=' piece with
  | some i => (formDecodeL (piece.take i), formDecodeL (piece.drop (i + 1)))
  | none => (formDecodeL piece, "")

/-- URLSearchParams parsing of a query string into an ordered key-value list. -/
def parseQuery (qs : String) : List (String × String) :=
  (splitOnChar '&' qs.data).filterMap
    (fun piece => if piece.isEmpty then none else some (querySplitKV piece))

/-- URLSearchParams.get: the first value recorded under the key, if any. -/
def jsGet (params : List (String × String)) (k : String) : Option String :=
  (params.find? (fun p => p.1 == k)).map (·.2)

/-- Collapse an empty string to none: the truthiness test JavaScript applies to
optional strings. -/
def noneIfEmpty (o : Option String) : Option String :=
  match o with
  | some s => if s == "" then none else some s
  | none => none

/-- JavaScript a || d for a string a and string default d. -/
def jsOrD (o : Option String) (d : String) : String :=
  match noneIfEmpty o with
  | some s => s
  | none => d

/-- JavaScript a || b for two optional strings. -/
def firstNonempty (a b : Option String) : Option String :=
  match noneIfEmpty a with
  | some s => some s
  | none => noneIfEmpty b

/-- Maximal leading run of decimal digits. -/
def decDigits (l : List Char) : List Char :=
  l.takeWhile (fun c => '0' ≤ c && c ≤ '9')

/-- Numeric value of a digit list. -/
def digitsToNat (l : List Char) : Nat :=
  l.foldl (fun acc c => acc * 10 + (c.toNat - 48)) 0

/-- JavaScript parseInt(s, 10); none models NaN. -/
def jsParseInt (s : String) : Option Int :=
  let l := s.data.dropWhile wsChar
  match l with
  | '-' :: rest =>
    let d := decDigits rest
    if d.isEmpty then none else some (-(digitsToNat d : Int))
  | '+' :: rest =>
    let d := decDigits rest
    if d.isEmpty then none else some (digitsToNat d : Int)
  | _ =>
    let d := decDigits l
    if d.isEmpty then none else some (digitsToNat d : Int)

/-! ### Data model of the sing-box outbound (types.ts) -/

/-- uTLS configuration. -/
structure UtlsConfig where
  enabled : Bool
  fingerprint : String
deriving DecidableEq

/-- Reality configuration. Both decoders always supply a short id (defaulting
to the empty string), so the field is modelled as a plain string. -/
structure RealityConfig where
  enabled : Bool
  public_key : String
  short_id : String
deriving DecidableEq

/-- TLS configuration; none in an optional field models an absent key. -/
structure TlsConfig where
  enabled : Bool
  server_name : Option String
  insecure : Option Bool
  alpn : Option (List String)
  utls : Option UtlsConfig
  reality : Option RealityConfig
deriving DecidableEq

/-- Transport configuration, a tagged union over ws, grpc, http and quic (a
plain tcp transport is never constructed by the decoders). For ws,
max_early_data is none both when the ed parameter is absent and when it does
not parse (the source then stores NaN). -/
inductive Transport where
  | ws (path : Option String) (headers : Option (List (String × String)))
      (max_early_data : Option Int) (early_data_header_name : Option String)
  | grpc (service_name : Option String)
  | http (host : Option (List String)) (path : Option String)
  | quic
deriving DecidableEq

/-- VLESS outbound descriptor; the constant discriminator field type = "vless"
is left implicit. -/
structure VlessOutbound where
  tag : String
  server : String
  server_port : Int
  uuid : String
  flow : Option String
  tls : Option TlsConfig
  transport : Option Transport
deriving DecidableEq

/-- Result of parsing one link. -/
structure ParseResult where
  success : Bool
  outbound : Option VlessOutbound
  error : Option String
  originalLink : String
  lineNumber : Nat
deriving DecidableEq

/-- Failure result constructor. -/
def mkFail (link : String) (ln : Nat) (msg : String) : ParseResult :=
  ⟨false, none, some msg, link, ln⟩

/-- Success result constructor. -/
def mkOk (link : String) (ln : Nat) (ob : VlessOutbound) : ParseResult :=
  ⟨true, some ob, none, link, ln⟩

/-- Valid transport type names. -/
def VALID_TRANSPORTS : List String := ["tcp", "ws", "grpc", "http", "quic"]

/-- Valid security names. -/
def VALID_SECURITY : List String := ["none", "tls", "reality"]

/-- Valid uTLS fingerprint names. -/
def VALID_FINGERPRINTS : List String :=
  ["chrome", "firefox", "edge", "safari", "360", "qq", "ios", "android", "random", "randomized"]

/-! ### Link decoder (vless.ts, parseVlessLink) — intermediate views

The decoder's intermediate values are exposed as named functions of the raw
link so that theorems can speak about them; parseVlessLink below consumes the
same functions. -/

/-- The link after trimming and removing the 8-character vless:// scheme. -/
def vlessWithoutProtocol (link : String) : List Char :=
  (trimChars link.data).drop 8

/-- Split of the scheme-less link on the hash sign. -/
def vlessHashParts (link : String) : List (List Char) :=
  splitOnChar '#' (vlessWithoutProtocol link)

/-- The part before the first hash sign. -/
def vlessMainPart (link : String) : List Char :=
  (vlessHashParts link).headD []

/-- The fragment: the part between the first and second hash sign, if any. -/
def vlessFragment (link : String) : Option (List Char) :=
  (vlessHashParts link).get? 1

/-- Tag selection: a non-empty fragment is percent-decoded (none models a
thrown URIError), otherwise the default tag or proxy-p followed by the line
number is used. -/
def vlessTag (link : String) (defaultTag : Option String) (ln : Nat) : Option String :=
  match vlessFragment link with
  | some f =>
    if f.isEmpty then some (jsOrD defaultTag ("proxy-p" ++ Nat.repr ln))
    else decodeURIComponentOpt ⟨f⟩
  | none => some (jsOrD defaultTag ("proxy-p" ++ Nat.repr ln))

/-- Index of the last at-sign in the whole pre-fragment part. -/
def vlessAtIndex (link : String) : Option Nat :=
  lastIdxOfChar '@' (vlessMainPart link)

/-- The credential: everything before the last at-sign. -/
def vlessUuid (link : String) : String :=
  match vlessAtIndex link with
  | some i => ⟨(vlessMainPart link).take i⟩
  | none => ""

/-- Everything after the last at-sign. -/
def vlessHostPortParams (link : String) : List Char :=
  match vlessAtIndex link with
  | some i => (vlessMainPart link).drop (i + 1)
  | none => []

/-- Split of the host/port/params part on the question mark. -/
def vlessQParts (link : String) : List (List Char) :=
  splitOnChar '?' (vlessHostPortParams link)

/-- The host:port part, before the first question mark. -/
def vlessHostPort (link : String) : String :=
  ⟨(vlessQParts link).headD []⟩

/-- The query string, between the first and second question mark (empty when
absent). -/
def vlessQueryString (link : String) : String :=
  ⟨((vlessQParts link).get? 1).getD []⟩

/-- The parsed query parameters of the link. -/
def vlessParams (link : String) : List (String × String) :=
  parseQuery (vlessQueryString link)

/-- The closing checks of host and port extraction (vless.ts lines 144-160):
missing server, then NaN or out-of-range port. -/
def hostPortFinish (server : String) (port : Option Int) : Except String (String × Int) :=
  if server == "" then Except.error "Missing server address"
  else
    match port with
    | none => Except.error "Invalid port number"
    | some p =>
      if p < 1 || p > 65535 then Except.error "Invalid port number"
      else Except.ok (server, p)

/-- Host and port extraction (vless.ts lines 104-160): bracketed IPv6 host or
last-colon split, feeding the closing checks. -/
def parseHostPort (hostPort : String) : Except String (String × Int) :=
  if strStartsWith hostPort "[" then
    match idxOfChar ']' hostPort.data with
    | none => Except.error "Invalid IPv6 address format"
    | some bracketEnd =>
      let server : String := ⟨(hostPort.data.drop 1).take (bracketEnd - 1)⟩
      let portPart : List Char := hostPort.data.drop (bracketEnd + 1)
      if !(startsWithList portPart [':']) then Except.error "Missing port after IPv6 address"
      else hostPortFinish server (jsParseInt ⟨portPart.drop 1⟩)
  else
    match lastIdxOfChar ':' hostPort.data with
    | none => Except.error "Missing port"
    | some colonIndex =>
      hostPortFinish ⟨hostPort.data.take colonIndex⟩ (jsParseInt ⟨hostPort.data.drop (colonIndex + 1)⟩)

/-- TLS-section construction (vless.ts lines 191-260): for security tls or
reality, resolve the SNI, fingerprint, ALPN, the mandatory Reality public key
(error when the pbk parameter is absent or empty), the spx fallback SNI and
the allowInsecure flag. -/
def buildVlessTlsOpt (security server : String) (params : List (String × String)) :
    Except String (Option TlsConfig) :=
  if security == "tls" || security == "reality" then
    let sni := firstNonempty (jsGet params "sni") (jsGet params "serverName")
    let serverName0 : Option String :=
      match sni with
      | some s => some s
      | none => if security == "tls" then some server else none
    let fp := firstNonempty (jsGet params "fp") (jsGet params "fingerprint")
    let utls : Option UtlsConfig :=
      match fp with
      | some f => if VALID_FINGERPRINTS.contains f then some ⟨true, f⟩ else none
      | none => none
    let alpn : Option (List String) :=
      match noneIfEmpty (jsGet params "alpn") with
      | some a => some ((splitOnChar ',' a.data).map (fun l => (⟨l⟩ : String)))
      | none => none
    let insecure : Option Bool :=
      if jsGet params "allowInsecure" == some "1" || jsGet params "allowInsecure" == some "true" then
        some true
      else none
    if security == "reality" then
      let sid := jsOrD (jsGet params "sid") ""
      match noneIfEmpty (jsGet params "pbk") with
      | none => Except.error "Reality requires public key (pbk)"
      | some pbk =>
        let serverName1 : Option String :=
          match noneIfEmpty serverName0 with
          | some s => some s
          | none =>
            match noneIfEmpty (jsGet params "spx") with
            | some spx => some spx
            | none => serverName0
        Except.ok (some ⟨true, serverName1, insecure, alpn, utls, some ⟨true, pbk, sid⟩⟩)
    else Except.ok (some ⟨true, serverName0, insecure, alpn, utls, none⟩)
  else Except.ok none

/-- Transport-section construction (vless.ts buildTransport). The error case
models a URIError thrown while percent-decoding a path. -/
def buildTransportV (tt : String) (params : List (String × String)) :
    Except Unit (Option Transport) :=
  if tt == "ws" then
    match noneIfEmpty (jsGet params "path") with
    | some p =>
      match decodeURIComponentOpt p with
      | none => Except.error ()
      | some path =>
        let headers := match noneIfEmpty (jsGet params "host") with
          | some h => some [("Host", h)]
          | none => none
        match noneIfEmpty (jsGet params "ed") with
        | some ed => Except.ok (some (Transport.ws (some path) headers (jsParseInt ed) (some "Sec-WebSocket-Protocol")))
        | none => Except.ok (some (Transport.ws (some path) headers none none))
    | none =>
      let headers := match noneIfEmpty (jsGet params "host") with
        | some h => some [("Host", h)]
        | none => none
      match noneIfEmpty (jsGet params "ed") with
      | some ed => Except.ok (some (Transport.ws none headers (jsParseInt ed) (some "Sec-WebSocket-Protocol")))
      | none => Except.ok (some (Transport.ws none headers none none))
  else if tt == "grpc" then
    Except.ok (some (Transport.grpc (firstNonempty (jsGet params "serviceName") (jsGet params "service"))))
  else if tt == "http" then
    let host : Option (List String) :=
      match noneIfEmpty (jsGet params "host") with
      | some h => some ((splitOnChar ',' h.data).map (fun l => (⟨l⟩ : String)))
      | none => none
    match noneIfEmpty (jsGet params "path") with
    | some p =>
      match decodeURIComponentOpt p with
      | none => Except.error ()
      | some path => Except.ok (some (Transport.http host (some path)))
    | none => Except.ok (some (Transport.http host none))
  else if tt == "quic" then Except.ok (some Transport.quic)
  else Except.ok none

/-- The tail of the link decoder once tag, credential, server and port are
known (vless.ts lines 162-293): flow, security validation, TLS section,
transport validation and the final outbound. -/
def vlessFinish (link : String) (ln : Nat) (tag uuid server : String) (serverPort : Int)
    (params : List (String × String)) : ParseResult :=
  let ob0 : VlessOutbound :=
    ⟨tag, server, serverPort, uuid, noneIfEmpty (jsGet params "flow"), none, none⟩
  let security := jsOrD (jsGet params "security") "none"
  if !(VALID_SECURITY.contains security) then
    mkFail link ln ("Invalid security type: " ++ security)
  else
    match buildVlessTlsOpt security server params with
    | Except.error e => mkFail link ln e
    | Except.ok tlsOpt =>
      let ob1 := { ob0 with tls := tlsOpt }
      let transportType := jsOrD (jsGet params "type") "tcp"
      if !(VALID_TRANSPORTS.contains transportType) then
        mkFail link ln ("Invalid transport type: " ++ transportType)
      else if transportType == "tcp" then mkOk link ln ob1
      else
        match buildTransportV transportType params with
        | Except.error _ => mkFail link ln "Parse error: URI malformed"
        | Except.ok t => mkOk link ln { ob1 with transport := t }

/-- The link decoder (vless.ts parseVlessLink): validation steps in source
order, ending in vlessFinish. -/
def parseVlessLink (link : String) (lineNumber : Nat) (defaultTag : Option String := none) :
    ParseResult :=
  let trimmedLink := jsTrim link
  if trimmedLink == "" then mkFail link lineNumber "Empty link"
  else if !(strStartsWith trimmedLink "vless://") then
    mkFail link lineNumber "Link must start with vless://"
  else
    match vlessTag link defaultTag lineNumber with
    | none => mkFail link lineNumber "Parse error: URI malformed"
    | some tag =>
      match vlessAtIndex link with
      | none => mkFail link lineNumber "Invalid format: missing @ separator"
      | some _ =>
        let uuid := vlessUuid link
        if uuid.length < 32 then mkFail link lineNumber "Invalid UUID format"
        else
          match parseHostPort (vlessHostPort link) with
          | Except.error e => mkFail link lineNumber e
          | Except.ok (server, serverPort) =>
            vlessFinish link lineNumber tag uuid server serverPort (vlessParams link)

/-! ### Protocol dispatcher and batch coordinator (index.ts) -/

/-- The protocols the dispatcher recognises. -/
inductive Protocol where
  | vless | vmess | trojan | ss | hy2 | tuic
deriving DecidableEq

/-- Protocol identifier as interpolated in the not-yet-supported message. -/
def protoName : Protocol → String
  | .vless => "vless"
  | .vmess => "vmess"
  | .trojan => "trojan"
  | .ss => "ss"
  | .hy2 => "hy2"
  | .tuic => "tuic"

/-- Scheme sniffing (index.ts detectProtocol). -/
def detectProtocol (link : String) : Option Protocol :=
  let t := jsToLower (jsTrim link)
  if strStartsWith t "vless://" then some .vless
  else if strStartsWith t "vmess://" then some .vmess
  else if strStartsWith t "trojan://" then some .trojan
  else if strStartsWith t "ss://" then some .ss
  else if strStartsWith t "hy2://" || strStartsWith t "hysteria2://" then some .hy2
  else if strStartsWith t "tuic://" then some .tuic
  else none

/-- The diagnostic for a recognised but unimplemented protocol. -/
def notYetSupportedMsg (p : Protocol) : String :=
  "Protocol \"" ++ protoName p ++ "\" is not yet supported"

/-- Single-link dispatch (index.ts parseProxyLink). The source's final
default branch is unreachable because every recognised protocol is listed. -/
def parseProxyLink (link : String) (lineNumber : Nat := 1) : ParseResult :=
  match detectProtocol link with
  | none => mkFail link lineNumber "Unsupported or invalid protocol"
  | some .vless => parseVlessLink link lineNumber
  | some p => mkFail link lineNumber (notYetSupportedMsg p)

/-- One recorded batch diagnostic. -/
structure ParseError where
  lineNumber : Nat
  link : String
  error : String
deriving DecidableEq

/-- Batch decode result. -/
structure BatchParseResult where
  outbounds : List VlessOutbound
  errors : List ParseError
  totalLinks : Nat
  successCount : Nat
  errorCount : Nat
deriving DecidableEq

/-- The recorded text of a failing line: truncated to 50 characters with an
appended ellipsis when longer than 50. -/
def truncate50 (line : String) : String :=
  if line.length > 50 then (⟨line.data.take 50⟩ : String) ++ "..." else line

/-- The per-line loop of parseProxyLinks: position index and sequential proxy
counter threaded through; comment lines are skipped, successes may have their
default tag renumbered, failures record the truncated line. -/
def runLines : List String → Nat → Nat → List VlessOutbound × List ParseError
  | [], _, _ => ([], [])
  | l :: rest, i, counter =>
    let line := jsTrim l
    if line == "" || strStartsWith line "#" || strStartsWith line "//" then
      runLines rest (i + 1) counter
    else
      let r := parseProxyLink line (i + 1)
      match r.success, r.outbound with
      | true, some ob =>
        let ob2 := if strStartsWith ob.tag "proxy-p" then
            { ob with tag := "proxy-p" ++ Nat.repr counter }
          else ob
        let rec1 := runLines rest (i + 1) (counter + 1)
        (ob2 :: rec1.1, rec1.2)
      | _, _ =>
        let rec1 := runLines rest (i + 1) counter
        (rec1.1, ⟨i + 1, truncate50 line, r.error.getD "Unknown error"⟩ :: rec1.2)

/-- The non-blank lines of the input, in order (index.ts line 642). -/
def proxyLines (text : String) : List String :=
  ((splitOnChar '\n' text.data).map (fun l => (⟨l⟩ : String))).filter
    (fun l => jsTrim l != "")

/-- Batch decoding (index.ts parseProxyLinks): blank lines are filtered out
before positions are assigned; totalLinks is the count of non-blank lines. -/
def parseProxyLinks (text : String) : BatchParseResult :=
  let lines := proxyLines text
  let res := runLines lines 0 1
  ⟨res.1, res.2, lines.length, res.1.length, res.2.length⟩

/-! ### VPN-config decoder (awg.ts) -/

/-- Section state of the INI state machine. -/
inductive CurSection where
  | nosec | iface | peer
deriving DecidableEq

/-- A parsed section: ordered key-value assignments with overwrite-on-repeat,
modelling a JavaScript object keyed by strings. -/
abbrev KVs := List (String × String)

/-- Object assignment: overwrite an existing key in place, else append. -/
def kvSet (m : KVs) (k v : String) : KVs :=
  if m.any (fun p => p.1 == k) then m.map (fun p => if p.1 == k then (k, v) else p)
  else m ++ [(k, v)]

/-- Object lookup. -/
def kvGet (m : KVs) (k : String) : Option String :=
  (m.find? (fun p => p.1 == k)).map (·.2)

/-- First match of the angle-bracket pattern: the earliest occurrence of a
less-than sign followed by one or more non-greater-than characters and a
greater-than sign, returning the bracketed content. -/
def angleMatch : List Char → Option (List Char)
  | [] => none
  | '<' :: rest =>
    match rest with
    | c :: _ =>
      if c == '>' then angleMatch rest
      else
        let content := rest.takeWhile (fun d => d != '>')
        match rest.drop content.length with
        | '>' :: _ => some content
        | _ => angleMatch rest
    | [] => none
  | _ :: rest => angleMatch rest

/-- Parse one key = value line (awg.ts parseLine): skip blanks and comments,
split at the first equals sign, trim both sides, and unwrap an
angle-bracketed value. -/
def parseLineKV (line : String) : Option (String × String) :=
  let trimmed := jsTrim line
  if trimmed == "" || strStartsWith trimmed "#" || strStartsWith trimmed "//" then none
  else
    match idxOfChar '=' trimmed.data with
    | none => none
    | some eqIndex =>
      let key := jsTrim ⟨trimmed.data.take eqIndex⟩
      let value0 := jsTrim ⟨trimmed.data.drop (eqIndex + 1)⟩
      let value :=
        if strStartsWith value0 "<" && value0.data.contains '>' then
          match angleMatch value0.data with
          | some content => jsTrim ⟨content⟩
          | none => value0
        else value0
      some (key, value)

/-- Strip a leading byte-order mark and normalize line endings. -/
def normNewlines : List Char → List Char
  | [] => []
  | '\r' :: '\n' :: rest => '\n' :: normNewlines rest
  | '\r' :: rest => '\n' :: normNewlines rest
  | c :: rest => c :: normNewlines rest

/-- Cleaned content of the .conf input (awg.ts line 127). -/
def awgClean (content : String) : List Char :=
  let noBom := match content.data with
    | '﻿' :: rest => rest
    | l => l
  normNewlines noBom

/-- The lines of the cleaned .conf input. -/
def awgLines (content : String) : List String :=
  (splitOnChar '\n' (awgClean content)).map (fun l => (⟨l⟩ : String))

/-- State of the section fold. -/
structure SecState where
  iface : KVs
  peers : List KVs
  cur : CurSection
  curPeer : KVs
deriving DecidableEq

/-- One step of the section state machine (awg.ts parseSections loop). -/
def sectionsStep (st : SecState) (line : String) : SecState :=
  let trimmed := jsTrim line
  if jsToLower trimmed == "[interface]" then { st with cur := .iface }
  else if jsToLower trimmed == "[peer]" then
    if st.cur == .peer && !st.curPeer.isEmpty then
      { st with peers := st.peers ++ [st.curPeer], cur := .peer, curPeer := [] }
    else { st with cur := .peer, curPeer := [] }
  else
    match parseLineKV trimmed with
    | none => st
    | some (k, v) =>
      match st.cur with
      | .iface => { st with iface := kvSet st.iface (jsToLower k) v }
      | .peer => { st with curPeer := kvSet st.curPeer (jsToLower k) v }
      | .nosec => st

/-- Result of the section pass. -/
structure SectionsOut where
  iface : KVs
  peers : List KVs
deriving DecidableEq

/-- Section extraction (awg.ts parseSections), including the trailing peer
flush. -/
def parseSections (content : String) : SectionsOut :=
  let st := (awgLines content).foldl sectionsStep ⟨[], [], .nosec, []⟩
  ⟨st.iface, if st.cur == .peer && !st.curPeer.isEmpty then st.peers ++ [st.curPeer] else st.peers⟩

/-- A non-empty run of decimal digits. -/
def allDigits (l : List Char) : Bool :=
  !l.isEmpty && l.all (fun c => '0' ≤ c && c ≤ '9')

/-- The anchored bracketed-IPv6 endpoint pattern: left bracket, non-empty
bracket-free address, right bracket, colon, digits to the end. -/
def ipv6EndpointMatch (e : List Char) : Option (String × String) :=
  match e with
  | '[' :: rest =>
    let content := rest.takeWhile (fun c => c != ']')
    if content.isEmpty then none
    else
      match rest.drop content.length with
      | ']' :: ':' :: ds => if allDigits ds then some (⟨content⟩, ⟨ds⟩) else none
      | _ => none
  | _ => none

/-- Peer endpoint parsing (awg.ts parseEndpoint): bracketed IPv6 form, else
split at the last colon with a numeric port. -/
def parseEndpoint (endpoint : String) : Option (String × Int) :=
  match ipv6EndpointMatch endpoint.data with
  | some (addr, ds) => some (addr, (digitsToNat ds.data : Int))
  | none =>
    match lastIdxOfChar ':' endpoint.data with
    | none => none
    | some lastColon =>
      match jsParseInt ⟨endpoint.data.drop (lastColon + 1)⟩ with
      | none => none
      | some port => some ((⟨endpoint.data.take lastColon⟩ : String), port)

/-- Interface-address normalization (awg.ts normalizeAddress): trim, then
append /32 (no colon) or /128 (colon) unless a slash is already present. -/
def normalizeAddress (addr : String) : String :=
  let trimmed := jsTrim addr
  if trimmed.data.contains '/' then trimmed
  else if trimmed.data.contains ':' then trimmed ++ "/128"
  else trimmed ++ "/32"

/-- Comma-separated list: split, trim, drop empties. -/
def parseCommaSeparated (value : String) : List String :=
  ((splitOnChar ',' value.data).map (fun l => jsTrim ⟨l⟩)).filter (fun s => s.length > 0)

/-- One VPN peer descriptor. -/
structure AwgPeer where
  address : String
  port : Int
  public_key : String
  preshared_key : Option String
  allowed_ips : List String
  persistent_keepalive_interval : Option Int
deriving DecidableEq

/-- The endpoint descriptor (awg.ts AwgEndpoint); the constant discriminator
field type = "awg" is left implicit. -/
structure AwgEndpoint where
  tag : String
  useIntegratedTun : Option Bool
  private_key : String
  address : List String
  mtu : Option Int
  listen_port : Option Int
  jc : Option Int
  jmin : Option Int
  jmax : Option Int
  s1 : Option Int
  s2 : Option Int
  s3 : Option Int
  s4 : Option Int
  h1 : Option String
  h2 : Option String
  h3 : Option String
  h4 : Option String
  i1 : Option String
  i2 : Option String
  i3 : Option String
  i4 : Option String
  i5 : Option String
  peers : List AwgPeer
deriving DecidableEq

/-- Result of the VPN-config decoder. -/
structure AwgParseResult where
  success : Bool
  endpoint : Option AwgEndpoint
  errors : List String
deriving DecidableEq

/-- A truthy optional numeric field parsed in base 10, silently dropped when
absent, empty, or unparseable. -/
def optParseInt (o : Option String) : Option Int :=
  match noneIfEmpty o with
  | some v => jsParseInt v
  | none => none

/-- The per-peer validation loop (awg.ts lines 346-393), indexed from 0. -/
def awgPeersLoop : List KVs → Nat → List String × List AwgPeer
  | [], _ => ([], [])
  | pd :: rest, i =>
    let tail := awgPeersLoop rest (i + 1)
    match noneIfEmpty (kvGet pd "publickey") with
    | none => (("Peer " ++ Nat.repr (i + 1) ++ ": PublicKey is required") :: tail.1, tail.2)
    | some pk =>
      match noneIfEmpty (kvGet pd "endpoint") with
      | none => (("Peer " ++ Nat.repr (i + 1) ++ ": Endpoint is required") :: tail.1, tail.2)
      | some ep =>
        match parseEndpoint ep with
        | none => (("Peer " ++ Nat.repr (i + 1) ++ ": Invalid Endpoint format") :: tail.1, tail.2)
        | some (addr, port) =>
          let peer : AwgPeer :=
            ⟨addr, port, pk, noneIfEmpty (kvGet pd "presharedkey"),
              (match noneIfEmpty (kvGet pd "allowedips") with
                | some a => parseCommaSeparated a
                | none => []),
              optParseInt (kvGet pd "persistentkeepalive")⟩
          (tail.1, peer :: tail.2)

/-- The VPN-config decoder (awg.ts parseAwgConfig): fatal section/private-key
/peer checks in source order, then the endpoint assembly and the per-peer
loop, failing when no peer survived. -/
def parseAwgConfig (confContent : String) : AwgParseResult :=
  let sections := parseSections confContent
  if sections.iface.isEmpty then ⟨false, none, ["No [Interface] section found"]⟩
  else
    match noneIfEmpty (kvGet sections.iface "privatekey") with
    | none => ⟨false, none, ["PrivateKey is required in [Interface] section"]⟩
    | some pk =>
      if sections.peers.isEmpty then ⟨false, none, ["No [Peer] section found"]⟩
      else
        let iface := sections.iface
        let addr : List String :=
          match noneIfEmpty (kvGet iface "address") with
          | some a => (parseCommaSeparated a).map normalizeAddress
          | none => []
        let res := awgPeersLoop sections.peers 0
        let ep : AwgEndpoint :=
          ⟨"awg-endpoint", some false, pk, addr,
            optParseInt (kvGet iface "mtu"), optParseInt (kvGet iface "listenport"),
            optParseInt (kvGet iface "jc"), optParseInt (kvGet iface "jmin"),
            optParseInt (kvGet iface "jmax"),
            optParseInt (kvGet iface "s1"), optParseInt (kvGet iface "s2"),
            optParseInt (kvGet iface "s3"), optParseInt (kvGet iface "s4"),
            noneIfEmpty (kvGet iface "h1"), noneIfEmpty (kvGet iface "h2"),
            noneIfEmpty (kvGet iface "h3"), noneIfEmpty (kvGet iface "h4"),
            noneIfEmpty (kvGet iface "i1"), noneIfEmpty (kvGet iface "i2"),
            noneIfEmpty (kvGet iface "i3"), noneIfEmpty (kvGet iface "i4"),
            noneIfEmpty (kvGet iface "i5"),
            res.2⟩
        if res.2.isEmpty then
          ⟨false, none, if !res.1.isEmpty then res.1 else ["No valid peers found"]⟩
        else ⟨true, some ep, res.1⟩

/-! ### Client-config decoder (amnezia.ts)

The decoder is modelled from the parsed JSON document onward: the generic
JSON.parse step is elided, and the typed XRay document (with optional fields
as in the source's interfaces) is the input. The untyped inbounds and log
keys, which the decoder never reads, are omitted. -/

/-- One XRay user entry. -/
structure XRayUser where
  id : String
  encryption : Option String
  flow : Option String
deriving DecidableEq

/-- One XRay connection target. -/
structure XRayVnext where
  address : String
  port : Int
  users : List XRayUser
deriving DecidableEq

/-- XRay reality settings. -/
structure XRayRealitySettings where
  fingerprint : Option String
  publicKey : Option String
  serverName : Option String
  shortId : Option String
  spiderX : Option String
deriving DecidableEq

/-- XRay TLS settings. -/
structure XRayTlsSettings where
  serverName : Option String
  fingerprint : Option String
  alpn : Option (List String)
  allowInsecure : Option Bool
deriving DecidableEq

/-- XRay WebSocket settings. -/
structure XRayWsSettings where
  path : Option String
  headers : Option (List (String × String))
deriving DecidableEq

/-- XRay gRPC settings. -/
structure XRayGrpcSettings where
  serviceName : Option String
  multiMode : Option Bool
deriving DecidableEq

/-- XRay HTTP settings. -/
structure XRayHttpSettings where
  path : Option String
  host : Option (List String)
deriving DecidableEq

/-- XRay stream settings. -/
structure XRayStreamSettings where
  network : Option String
  security : Option String
  realitySettings : Option XRayRealitySettings
  tlsSettings : Option XRayTlsSettings
  wsSettings : Option XRayWsSettings
  grpcSettings : Option XRayGrpcSettings
  httpSettings : Option XRayHttpSettings
deriving DecidableEq

/-- The settings object holding the vnext list. -/
structure XRaySettings where
  vnext : Option (List XRayVnext)
deriving DecidableEq

/-- One XRay outbound entry. -/
structure XRayOutbound where
  protocol : String
  tag : Option String
  settings : Option XRaySettings
  streamSettings : Option XRayStreamSettings
deriving DecidableEq

/-- The XRay document. -/
structure XRayConfig where
  outbounds : Option (List XRayOutbound)
deriving DecidableEq

/-- Result of the client-config decoder. -/
structure AmneziaParseResult where
  success : Bool
  outbounds : List VlessOutbound
  errors : List String
deriving DecidableEq

/-- TLS-section conversion (amnezia.ts buildTlsConfig). For reality security
a missing publicKey leaves the reality sub-object unset; no error is
raised. -/
def buildTlsConfigX (stream : XRayStreamSettings) : TlsConfig :=
  if stream.security == some "reality" then
    match stream.realitySettings with
    | some reality =>
      { enabled := true
        server_name := noneIfEmpty reality.serverName
        insecure := none
        alpn := none
        utls := match noneIfEmpty reality.fingerprint with
          | some f => some ⟨true, f⟩
          | none => none
        reality := match noneIfEmpty reality.publicKey with
          | some pk => some ⟨true, pk, jsOrD reality.shortId ""⟩
          | none => none }
    | none => ⟨true, none, none, none, none, none⟩
  else if stream.security == some "tls" then
    match stream.tlsSettings with
    | some tls =>
      { enabled := true
        server_name := noneIfEmpty tls.serverName
        insecure := if tls.allowInsecure == some true then some true else none
        alpn := match tls.alpn with
          | some a => if a.length > 0 then some a else none
          | none => none
        utls := match noneIfEmpty tls.fingerprint with
          | some f => some ⟨true, f⟩
          | none => none
        reality := none }
    | none => ⟨true, none, none, none, none, none⟩
  else ⟨true, none, none, none, none, none⟩

/-- Transport conversion (amnezia.ts buildTransport). -/
def buildTransportX (network : String) (stream : XRayStreamSettings) : Option Transport :=
  if network == "ws" then
    some (Transport.ws (stream.wsSettings.bind (fun w => noneIfEmpty w.path))
      (stream.wsSettings.bind (·.headers)) none none)
  else if network == "grpc" then
    some (Transport.grpc (stream.grpcSettings.bind (fun g => noneIfEmpty g.serviceName)))
  else if network == "http" || network == "h2" then
    some (Transport.http
      (match stream.httpSettings.bind (·.host) with
        | some h => if h.length > 0 then some h else none
        | none => none)
      (stream.httpSettings.bind (fun h => noneIfEmpty h.path)))
  else if network == "quic" then some Transport.quic
  else none

/-- Conversion of one XRay outbound (amnezia.ts convertXRayToSingbox);
errors model thrown exceptions caught by the caller. -/
def convertXRayToSingbox (xray : XRayOutbound) (index : Nat) : Except String VlessOutbound :=
  match (xray.settings.bind (·.vnext)).bind (·.head?) with
  | none => Except.error "No vnext configuration found"
  | some vnext =>
    match vnext.users.head? with
    | none => Except.error "No user configuration found"
    | some user =>
      let tag := jsOrD xray.tag ("proxy-p" ++ Nat.repr index)
      let ob0 : VlessOutbound :=
        ⟨tag, vnext.address, vnext.port, user.id, noneIfEmpty user.flow, none, none⟩
      match xray.streamSettings with
      | none => Except.ok ob0
      | some stream =>
        let ob1 :=
          if stream.security == some "tls" || stream.security == some "reality" then
            { ob0 with tls := some (buildTlsConfigX stream) }
          else ob0
        let network := jsOrD stream.network "tcp"
        let ob2 :=
          if network != "tcp" then
            match buildTransportX network stream with
            | some t => { ob1 with transport := some t }
            | none => ob1
          else ob1
        Except.ok ob2

/-- The per-entry loop of parseAmneziaConfig, with entry index and running
proxy counter. -/
def amneziaLoop : List XRayOutbound → Nat → Nat → List String × List VlessOutbound
  | [], _, _ => ([], [])
  | x :: rest, i, counter =>
    if x.protocol != "vless" then
      let tail := amneziaLoop rest (i + 1) counter
      (("Outbound " ++ Nat.repr (i + 1) ++ ": protocol \"" ++ x.protocol ++
        "\" not supported, skipping") :: tail.1, tail.2)
    else
      match convertXRayToSingbox x counter with
      | Except.ok ob =>
        let tail := amneziaLoop rest (i + 1) (counter + 1)
        (tail.1, ob :: tail.2)
      | Except.error msg =>
        let tail := amneziaLoop rest (i + 1) counter
        (("Outbound " ++ Nat.repr (i + 1) ++ ": " ++ msg) :: tail.1, tail.2)

/-- The client-config decoder (amnezia.ts parseAmneziaConfig) from the parsed
document onward: the outbounds array is required, each entry is converted,
and the overall result is successful when at least one entry converted. -/
def parseAmneziaConfig (config : XRayConfig) : AmneziaParseResult :=
  match config.outbounds with
  | none => ⟨false, [], ["No outbounds array found in config"]⟩
  | some obs =>
    let res := amneziaLoop obs 0 1
    ⟨res.2.length > 0, res.2, res.1⟩

/-! ### Assembler (builder.ts) -/

/-- An imported outbound as the assembler sees it: a type tag and a label
(the source type also carries arbitrary further keys, which the assembler
never reads and which are not modelled). -/
structure GenericOutbound where
  otype : String
  tag : String
deriving DecidableEq

/-- One DNS server entry of a preset. -/
structure DnsServer where
  tag : String
  typ : String
  server : Option String
  server_port : Option Int
  detour : Option String
deriving DecidableEq

/-- A DNS preset configuration fragment. -/
structure DnsConfig where
  servers : List DnsServer
  final : String
  strategy : String
deriving DecidableEq

/-- DNS preset identifiers. -/
inductive DnsPreset where
  | google | cloudflare | adguard
deriving DecidableEq

/-- The DNS preset table (templates/dns.ts), configuration fragments only. -/
def dnsPresets : DnsPreset → DnsConfig
  | .google =>
    ⟨[⟨"google", "tls", some "8.8.8.8", none, some "proxy"⟩,
      ⟨"local", "local", none, none, none⟩], "google", "prefer_ipv4"⟩
  | .cloudflare =>
    ⟨[⟨"cloudflare", "https", some "1.1.1.1", some 443, some "proxy"⟩,
      ⟨"local", "local", none, none, none⟩], "cloudflare", "prefer_ipv4"⟩
  | .adguard =>
    ⟨[⟨"adguard", "tls", some "dns.adguard-dns.com", none, some "proxy"⟩,
      ⟨"local", "local", none, none, none⟩], "adguard", "prefer_ipv4"⟩

/-- One inbound listener entry of a preset. -/
structure InboundConfig where
  typ : String
  tag : String
  address : Option (List String)
  auto_route : Option Bool
  strict_route : Option Bool
  stack : Option String
  listen : Option String
  listen_port : Option Int
deriving DecidableEq

/-- Inbound preset identifiers. -/
inductive InboundPreset where
  | tun | mixed | full
deriving DecidableEq

/-- An outbound of the assembled configuration: an imported descriptor or one
of the synthesized policy outbounds. -/
inductive ConfigOutbound where
  | imported (o : GenericOutbound)
  | selector (tag : String) (outbounds : List String) (dflt : String)
  | urltest (tag : String) (outbounds : List String) (url : String) (interval : String)
      (tolerance : Nat)
  | direct (tag : String)
deriving DecidableEq

/-- A routing rule. -/
structure RouteRule where
  ip_is_private : Option Bool
  outbound : String
deriving DecidableEq

/-- The routing section. -/
structure RouteConfig where
  default_domain_resolver : String
  auto_detect_interface : Bool
  final : String
  rules : List RouteRule
deriving DecidableEq

/-- The log section. -/
structure LogConfig where
  level : String
  timestamp : Bool
deriving DecidableEq

/-- The cache-file section. -/
structure CacheFile where
  enabled : Bool
  path : String
deriving DecidableEq

/-- The clash-api section. -/
structure ClashApi where
  external_controller : String
  external_ui : String
  secret : String
deriving DecidableEq

/-- The experimental section. -/
structure ExperimentalConfig where
  cache_file : CacheFile
  clash_api : ClashApi
deriving DecidableEq

/-- The assembled configuration; a none endpoints field models an absent
endpoints key. -/
structure SingBoxConfig where
  log : LogConfig
  experimental : ExperimentalConfig
  dns : DnsConfig
  inbounds : List InboundConfig
  endpoints : Option (List AwgEndpoint)
  outbounds : List ConfigOutbound
  route : RouteConfig
deriving DecidableEq

/-- The assembler (builder.ts buildConfig). The inbound preset table is a
parameter because the repository carries two variants of the template file;
the assembler copies the selected fragment verbatim either way. -/
def buildConfig (inboundTable : InboundPreset → List InboundConfig)
    (outbounds : List GenericOutbound) (endpoints : List AwgEndpoint)
    (dnsPreset : DnsPreset) (inboundPreset : InboundPreset) : SingBoxConfig :=
  let allTags := outbounds.map (·.tag) ++ endpoints.map (·.tag)
  let systemOutbounds : List ConfigOutbound :=
    [ConfigOutbound.selector "proxy"
        (if allTags.length > 0 then "auto" :: allTags else ["direct"])
        (if allTags.length > 0 then "auto" else "direct")] ++
    (if allTags.length > 0 then
        [ConfigOutbound.urltest "auto" allTags "https://www.gstatic.com/generate_204" "5m" 50]
      else []) ++
    [ConfigOutbound.direct "direct"]
  { log := ⟨"info", true⟩
    experimental := ⟨⟨true, "cache.db"⟩, ⟨"127.0.0.1:9090", "ui", ""⟩⟩
    dns := dnsPresets dnsPreset
    inbounds := inboundTable inboundPreset
    endpoints := if endpoints.length > 0 then some endpoints else none
    outbounds := outbounds.map ConfigOutbound.imported ++ systemOutbounds
    route := ⟨"local", true, "proxy", [⟨some true, "direct"⟩]⟩ }

/-! ### Helper lemmas about the link decoder -/

theorem hostPortFinish_ok_range (sv : String) (po : Option Int) (s : String) (p : Int)
    (h : hostPortFinish sv po = Except.ok (s, p)) : 1 ≤ p ∧ p ≤ 65535 := by
  unfold hostPortFinish at h
  split at h
  · exact absurd h (by simp)
  · split at h
    · exact absurd h (by simp)
    · rename_i q
      split at h
      · exact absurd h (by simp)
      · rename_i hq
        obtain ⟨rfl, rfl⟩ : s = sv ∧ p = q := by
          refine ⟨?_, ?_⟩ <;> injection h with h1 <;> simp_all
        simp only [Bool.or_eq_true, decide_eq_true_eq, not_or] at hq
        omega

theorem parseHostPort_ok_range (hp : String) (s : String) (p : Int)
    (h : parseHostPort hp = Except.ok (s, p)) : 1 ≤ p ∧ p ≤ 65535 := by
  unfold parseHostPort at h
  dsimp only at h
  split at h
  · split at h
    · exact absurd h (by simp)
    · split at h
      · exact absurd h (by simp)
      · exact hostPortFinish_ok_range _ _ _ _ h
  · split at h
    · exact absurd h (by simp)
    · exact hostPortFinish_ok_range _ _ _ _ h

theorem vlessFinish_success_spec (link : String) (ln : Nat) (tag uuid server : String)
    (serverPort : Int) (params : List (String × String))
    (h : (vlessFinish link ln tag uuid server serverPort params).success = true) :
    ∃ ob, (vlessFinish link ln tag uuid server serverPort params).outbound = some ob ∧
      ob.server_port = serverPort ∧ ob.uuid = uuid ∧ ob.server = server := by
  generalize hgen : vlessFinish link ln tag uuid server serverPort params = r at h ⊢
  unfold vlessFinish at hgen
  dsimp only at hgen
  split at hgen
  · subst hgen; exact absurd h (by simp [mkFail])
  · split at hgen
    · subst hgen; exact absurd h (by simp [mkFail])
    · split at hgen
      · subst hgen; exact absurd h (by simp [mkFail])
      · split at hgen
        · subst hgen; exact ⟨_, rfl, rfl, rfl, rfl⟩
        · split at hgen
          · subst hgen; exact absurd h (by simp [mkFail])
          · subst hgen; exact ⟨_, rfl, rfl, rfl, rfl⟩

theorem vlessFinish_reality_noPbk (link : String) (ln : Nat) (tag uuid server : String)
    (serverPort : Int) (params : List (String × String))
    (hs : jsGet params "security" = some "reality") (hp : jsGet params "pbk" = none) :
    vlessFinish link ln tag uuid server serverPort params =
      mkFail link ln "Reality requires public key (pbk)" := by
  unfold vlessFinish buildVlessTlsOpt
  simp [hs, hp, jsOrD, noneIfEmpty, VALID_SECURITY]

theorem parseVlessLink_success_spec (link : String) (ln : Nat) (dt : Option String)
    (h : (parseVlessLink link ln dt).success = true) :
    ∃ i ob server p, vlessAtIndex link = some i ∧
      parseHostPort (vlessHostPort link) = Except.ok (server, p) ∧
      (parseVlessLink link ln dt).outbound = some ob ∧
      ob.uuid = vlessUuid link ∧ ob.server = server ∧ ob.server_port = p ∧
      1 ≤ p ∧ p ≤ 65535 := by
  generalize hgen : parseVlessLink link ln dt = r at h ⊢
  unfold parseVlessLink at hgen
  dsimp only at hgen
  split at hgen
  · subst hgen; exact absurd h (by simp [mkFail])
  · split at hgen
    · subst hgen; exact absurd h (by simp [mkFail])
    · split at hgen
      · subst hgen; exact absurd h (by simp [mkFail])
      · split at hgen
        · subst hgen; exact absurd h (by simp [mkFail])
        · rename_i i heqAt
          split at hgen
          · subst hgen; exact absurd h (by simp [mkFail])
          · split at hgen
            · subst hgen; exact absurd h (by simp [mkFail])
            · rename_i pr server p heqHp
              obtain ⟨ob, ho, h1, h2, h3⟩ :=
                vlessFinish_success_spec link ln _ (vlessUuid link) server p
                  (vlessParams link) (hgen ▸ h)
              exact ⟨i, ob, server, p, heqAt, heqHp, hgen ▸ ho, h2, h3, h1,
                parseHostPort_ok_range _ _ _ heqHp⟩

theorem parseVlessLink_reality_fails (link : String) (ln : Nat) (dt : Option String)
    (hs : jsGet (vlessParams link) "security" = some "reality")
    (hp : jsGet (vlessParams link) "pbk" = none) :
    (parseVlessLink link ln dt).success = false ∧
      (parseVlessLink link ln dt).outbound = none := by
  generalize hgen : parseVlessLink link ln dt = r
  unfold parseVlessLink at hgen
  dsimp only at hgen
  split at hgen
  · subst hgen; exact ⟨rfl, rfl⟩
  · split at hgen
    · subst hgen; exact ⟨rfl, rfl⟩
    · split at hgen
      · subst hgen; exact ⟨rfl, rfl⟩
      · split at hgen
        · subst hgen; exact ⟨rfl, rfl⟩
        · split at hgen
          · subst hgen; exact ⟨rfl, rfl⟩
          · split at hgen
            · subst hgen; exact ⟨rfl, rfl⟩
            · rw [vlessFinish_reality_noPbk _ _ _ _ _ _ _ hs hp] at hgen
              subst hgen; exact ⟨rfl, rfl⟩

theorem parseVlessLink_missing_at (link : String) (ln : Nat) (dt : Option String)
    (h1 : (jsTrim link == "") = false)
    (h2 : strStartsWith (jsTrim link) "vless://" = true)
    (h3 : (vlessTag link dt ln).isSome = true)
    (h4 : vlessAtIndex link = none) :
    parseVlessLink link ln dt = mkFail link ln "Invalid format: missing @ separator" := by
  obtain ⟨t, ht⟩ := Option.isSome_iff_exists.mp h3
  unfold parseVlessLink
  simp [h1, h2, ht, h4]

/-! ### Claim theorems -/

/-- C1 (counterexample): the claim asserts that an entry specifying reality
security without a public key fails with the "Reality requires public key"
diagnostic in the Client-Config Decoder as well; in fact parseAmneziaConfig
decodes such an entry successfully, with no diagnostic at all and with the
reality settings silently omitted from the produced TLS block. -/
theorem C1_counterexample :
    (parseAmneziaConfig ⟨some [⟨"vless", none,
        some ⟨some [⟨"srv.example", 443,
          [⟨"11111111-1111-1111-1111-111111111111", some "none", none⟩]⟩]⟩,
        some ⟨none, some "reality", some ⟨none, none, some "sni.example", none, none⟩,
          none, none, none, none⟩⟩]⟩).success = true ∧
    (parseAmneziaConfig ⟨some [⟨"vless", none,
        some ⟨some [⟨"srv.example", 443,
          [⟨"11111111-1111-1111-1111-111111111111", some "none", none⟩]⟩]⟩,
        some ⟨none, some "reality", some ⟨none, none, some "sni.example", none, none⟩,
          none, none, none, none⟩⟩]⟩).errors = [] ∧
    (parseAmneziaConfig ⟨some [⟨"vless", none,
        some ⟨some [⟨"srv.example", 443,
          [⟨"11111111-1111-1111-1111-111111111111", some "none", none⟩]⟩]⟩,
        some ⟨none, some "reality", some ⟨none, none, some "sni.example", none, none⟩,
          none, none, none, none⟩⟩]⟩).outbounds.map
        (fun o => o.tls.map (fun t => t.reality)) = [some none] := by
  refine ⟨rfl, rfl, rfl⟩

/-- C1 (amended): in the Link Decoder an entry whose query specifies reality
security and carries no pbk parameter never decodes, and the stage that
builds the TLS section yields exactly the "Reality requires public key (pbk)"
diagnostic, which is the reported error whenever the earlier validations
pass (illustrated on a concrete link); in the Client-Config Decoder, by
contrast, an entry with reality security and no realitySettings.publicKey
decodes successfully and the reality settings are silently omitted. -/
theorem C1_reality_requires_pbk_amended :
    (∀ link ln dt, jsGet (vlessParams link) "security" = some "reality" →
        jsGet (vlessParams link) "pbk" = none →
        (parseVlessLink link ln dt).success = false ∧
          (parseVlessLink link ln dt).outbound = none) ∧
    (∀ link ln tag uuid server port params,
        jsGet params "security" = some "reality" → jsGet params "pbk" = none →
        vlessFinish link ln tag uuid server port params =
          mkFail link ln "Reality requires public key (pbk)") ∧
    (parseVlessLink
        "vless://11111111-1111-1111-1111-111111111111@example.com:443?security=reality&sid=abc&type=tcp#myserver"
        1 none).error = some "Reality requires public key (pbk)" ∧
    (parseAmneziaConfig ⟨some [⟨"vless", none,
        some ⟨some [⟨"srv.example", 443,
          [⟨"11111111-1111-1111-1111-111111111111", some "none", none⟩]⟩]⟩,
        some ⟨none, some "reality", some ⟨none, none, none, none, none⟩,
          none, none, none, none⟩⟩]⟩).outbounds.map
        (fun o => (o.tls.map (fun t => t.reality), o.server)) = [(some none, "srv.example")] := by
  refine ⟨?_, ?_, by decide, rfl⟩
  · intro link ln dt hs hp
    exact parseVlessLink_reality_fails link ln dt hs hp
  · intro link ln tag uuid server port params hs hp
    exact vlessFinish_reality_noPbk link ln tag uuid server port params hs hp

/-- C1 (witness): the universally quantified parts of the amended claim
applied to a concrete reality link without a pbk parameter. -/
theorem C1_witness :
    (parseVlessLink "vless://00000000-0000-0000-0000-000000000000@example.com:443?security=reality"
        1 none).success = false ∧
      (parseVlessLink "vless://00000000-0000-0000-0000-000000000000@example.com:443?security=reality"
        1 none).outbound = none :=
  C1_reality_requires_pbk_amended.1
    "vless://00000000-0000-0000-0000-000000000000@example.com:443?security=reality"
    1 none (by decide) (by decide)

/-- C2 (counterexample): the claim says the credential is separated by
splitting on the last at-sign occurring before the query string; the decoder
actually takes the last at-sign of the whole pre-fragment part, which can lie
inside the query string. On the concrete link the two split positions differ
(44 versus 36), the claimed split would isolate the 36-character credential
and the parsable host:port h:1, yet the decoder rejects the link with a
"Missing port" diagnostic. -/
theorem C2_counterexample :
    vlessAtIndex "vless://00000000-0000-0000-0000-000000000000@h:1?x=a@b" = some 44 ∧
    lastIdxOfChar '@'
        ((splitOnChar '?'
          (vlessMainPart "vless://00000000-0000-0000-0000-000000000000@h:1?x=a@b")).headD []) =
      some 36 ∧
    (⟨(vlessMainPart "vless://00000000-0000-0000-0000-000000000000@h:1?x=a@b").take 36⟩ : String) =
      "00000000-0000-0000-0000-000000000000" ∧
    (parseVlessLink "vless://00000000-0000-0000-0000-000000000000@h:1?x=a@b" 1 none).success = false ∧
    (parseVlessLink "vless://00000000-0000-0000-0000-000000000000@h:1?x=a@b" 1 none).error =
      some "Missing port" := by
  refine ⟨rfl, rfl, rfl, rfl, rfl⟩

/-- C2 (amended): the credential is separated from the host/port/params
portion by splitting on the last at-sign anywhere in the part before the
fragment — including inside the query string — and a link whose pre-fragment
part contains no at-sign is rejected with the missing-at-separator
diagnostic (provided the non-emptiness, scheme and tag-decoding steps that
precede the check pass). -/
theorem C2_split_at_amended :
    (∀ link ln dt, (jsTrim link == "") = false →
        strStartsWith (jsTrim link) "vless://" = true →
        (vlessTag link dt ln).isSome = true → vlessAtIndex link = none →
        parseVlessLink link ln dt = mkFail link ln "Invalid format: missing @ separator") ∧
    (∀ link ln dt, (parseVlessLink link ln dt).success = true →
        ∃ i ob, vlessAtIndex link = some i ∧
          (parseVlessLink link ln dt).outbound = some ob ∧
          ob.uuid = (⟨(vlessMainPart link).take i⟩ : String)) := by
  constructor
  · intro link ln dt h1 h2 h3 h4
    exact parseVlessLink_missing_at link ln dt h1 h2 h3 h4
  · intro link ln dt h
    obtain ⟨i, ob, server, p, heqAt, _, ho, hu, _, _, _, _⟩ :=
      parseVlessLink_success_spec link ln dt h
    refine ⟨i, ob, heqAt, ho, ?_⟩
    rw [hu]
    unfold vlessUuid
    rw [heqAt]

/-- C2 (witness): both parts of the amended claim at concrete links — a link
without an at-sign is rejected with the missing-at diagnostic, and on a
successful link the credential is everything before the last at-sign. -/
theorem C2_witness :
    (parseVlessLink "vless://nope" 1 none =
      mkFail "vless://nope" 1 "Invalid format: missing @ separator") ∧
    (∃ i ob, vlessAtIndex "vless://00000000-0000-0000-0000-000000000000@example.com:443" = some i ∧
      (parseVlessLink "vless://00000000-0000-0000-0000-000000000000@example.com:443" 1 none).outbound =
        some ob ∧
      ob.uuid =
        (⟨(vlessMainPart "vless://00000000-0000-0000-0000-000000000000@example.com:443").take i⟩ :
          String)) :=
  ⟨C2_split_at_amended.1 "vless://nope" 1 none (by decide) (by decide) (by decide) (by decide),
    C2_split_at_amended.2 "vless://00000000-0000-0000-0000-000000000000@example.com:443" 1 none
      (by decide)⟩

/-- C5: whenever the Link Decoder succeeds the outbound's server_port lies in
[1,65535]; the host/port stage only succeeds with a port in that range; and
links with a missing, zero, too-large or unparseable port are rejected with
the port diagnostics. -/
theorem C5_port_range :
    (∀ link ln dt, (parseVlessLink link ln dt).success = true →
        ∃ ob, (parseVlessLink link ln dt).outbound = some ob ∧
          1 ≤ ob.server_port ∧ ob.server_port ≤ 65535) ∧
    (∀ hp s p, parseHostPort hp = Except.ok (s, p) → 1 ≤ p ∧ p ≤ 65535) ∧
    (parseVlessLink "vless://00000000-0000-0000-0000-000000000000@example.com" 1 none).error =
      some "Missing port" ∧
    (parseVlessLink "vless://00000000-0000-0000-0000-000000000000@example.com:0" 1 none).error =
      some "Invalid port number" ∧
    (parseVlessLink "vless://00000000-0000-0000-0000-000000000000@example.com:99999" 1 none).error =
      some "Invalid port number" ∧
    (parseVlessLink "vless://00000000-0000-0000-0000-000000000000@example.com:abc" 1 none).error =
      some "Invalid port number" := by
  refine ⟨?_, ?_, rfl, rfl, rfl, rfl⟩
  · intro link ln dt h
    obtain ⟨_, ob, _, p, _, _, ho, _, _, hsp, hlo, hhi⟩ := parseVlessLink_success_spec link ln dt h
    exact ⟨ob, ho, by omega⟩
  · intro hp s p h
    exact parseHostPort_ok_range hp s p h

/-- C5 (witness): the in-range conclusion at a concrete successful link. -/
theorem C5_witness :
    ∃ ob, (parseVlessLink
        "vless://11111111-1111-1111-1111-111111111111@example.com:443?security=reality&pbk=PBKVALUE&sid=abc&type=tcp#myserver"
        1 none).outbound = some ob ∧ 1 ≤ ob.server_port ∧ ob.server_port ≤ 65535 :=
  C5_port_range.1
    "vless://11111111-1111-1111-1111-111111111111@example.com:443?security=reality&pbk=PBKVALUE&sid=abc&type=tcp#myserver"
    1 none (by decide)

/-- C9: the dispatcher's three outcomes are exhaustive and mutually distinct:
an unrecognised scheme yields the "Unsupported or invalid protocol"
diagnostic, a recognised-but-unimplemented protocol yields its own
not-yet-supported diagnostic (always a different string), and exactly the
links whose lower-cased trimmed text starts with vless:// are routed to the
Link Decoder. -/
theorem C9_dispatch :
    (∀ link ln, detectProtocol link = none →
        parseProxyLink link ln = mkFail link ln "Unsupported or invalid protocol") ∧
    (∀ link ln p, detectProtocol link = some p → p ≠ Protocol.vless →
        parseProxyLink link ln = mkFail link ln (notYetSupportedMsg p)) ∧
    (∀ link ln, detectProtocol link = some Protocol.vless →
        parseProxyLink link ln = parseVlessLink link ln) ∧
    (∀ link, detectProtocol link = some Protocol.vless ↔
        strStartsWith (jsToLower (jsTrim link)) "vless://" = true) ∧
    (∀ p, p ≠ Protocol.vless → notYetSupportedMsg p ≠ "Unsupported or invalid protocol") := by
  refine ⟨?_, ?_, ?_, ?_, ?_⟩
  · intro link ln h
    simp [parseProxyLink, h]
  · intro link ln p h hne
    cases p
    · exact absurd rfl hne
    all_goals simp [parseProxyLink, h]
  · intro link ln h
    simp [parseProxyLink, h]
  · intro link
    constructor
    · intro h
      by_contra hc
      unfold detectProtocol at h
      dsimp only at h
      rw [if_neg hc] at h
      repeat' split at h
      all_goals simp_all
    · intro h
      unfold detectProtocol
      dsimp only
      rw [if_pos h]
  · intro p hne
    cases p
    · exact absurd rfl hne
    all_goals decide

/-- C9 (witness): the dispatcher outcomes at concrete links of each kind. -/
theorem C9_witness :
    parseProxyLink "vmess://x" 1 = mkFail "vmess://x" 1 (notYetSupportedMsg Protocol.vmess) ∧
    parseProxyLink "zzz" 1 = mkFail "zzz" 1 "Unsupported or invalid protocol" ∧
    parseProxyLink "VLESS://x" 1 = parseVlessLink "VLESS://x" 1 :=
  ⟨C9_dispatch.2.1 "vmess://x" 1 Protocol.vmess (by decide) (by decide),
    C9_dispatch.1 "zzz" 1 (by decide),
    C9_dispatch.2.2.1 "VLESS://x" 1 (by decide)⟩

/-! ### Helper lemmas about the batch coordinator -/

theorem runLines_count (ls : List String) (i c : Nat) :
    (runLines ls i c).1.length + (runLines ls i c).2.length +
      ls.countP (fun l => jsTrim l == "" || strStartsWith (jsTrim l) "#" ||
        strStartsWith (jsTrim l) "//") = ls.length := by
  induction ls generalizing i c with
  | nil => simp [runLines]
  | cons l rest ih =>
    unfold runLines
    dsimp only
    by_cases hskip : (jsTrim l == "" || strStartsWith (jsTrim l) "#" ||
        strStartsWith (jsTrim l) "//") = true
    · rw [if_pos hskip]
      have := ih (i + 1) c
      simp only [List.countP_cons, List.length_cons, hskip, if_true]
      omega
    · rw [if_neg hskip]
      have hskip2 : (jsTrim l == "" || strStartsWith (jsTrim l) "#" ||
          strStartsWith (jsTrim l) "//") = false := by simpa using hskip
      split
      · have := ih (i + 1) (c + 1)
        simp [List.countP_cons, hskip2]
        omega
      · have := ih (i + 1) c
        simp [List.countP_cons, hskip2]
        omega

theorem runLines_errors_spec (ls : List String) (i c : Nat) :
    ∀ e ∈ (runLines ls i c).2, ∃ j, j < ls.length ∧ e.lineNumber = i + j + 1 ∧
      e.link = truncate50 (jsTrim (ls.getD j "")) := by
  induction ls generalizing i c with
  | nil => simp [runLines]
  | cons l rest ih =>
    intro e he
    unfold runLines at he
    dsimp only at he
    split at he
    · obtain ⟨j, hj, h1, h2⟩ := ih (i + 1) c e he
      exact ⟨j + 1, by simpa using hj, by omega, by simpa using h2⟩
    · split at he
      · obtain ⟨j, hj, h1, h2⟩ := ih (i + 1) (c + 1) e he
        exact ⟨j + 1, by simpa using hj, by omega, by simpa using h2⟩
      · rcases List.mem_cons.mp he with rfl | he2
        · exact ⟨0, by simp, by simp, by simp [List.getD]⟩
        · obtain ⟨j, hj, h1, h2⟩ := ih (i + 1) c e he2
          exact ⟨j + 1, by simpa using hj, by omega, by simpa using h2⟩

theorem proxyLines_not_blank (text : String) :
    ∀ l ∈ proxyLines text, (jsTrim l == "") = false := by
  intro l hl
  have := List.of_mem_filter hl
  simpa [bne] using this

/-- C3 (counterexample): on an input consisting of one comment line and one
bad line, parseProxyLinks reports two total links but zero successes and one
error — the comment line is skipped yet still counted, so totalLinks differs
from successCount + errorCount. -/
theorem C3_counterexample :
    (parseProxyLinks "# c\nx").totalLinks = 2 ∧
    (parseProxyLinks "# c\nx").successCount = 0 ∧
    (parseProxyLinks "# c\nx").errorCount = 1 ∧
    (parseProxyLinks "# c\nx").totalLinks ≠
      (parseProxyLinks "# c\nx").successCount + (parseProxyLinks "# c\nx").errorCount := by
  refine ⟨rfl, rfl, rfl, by decide⟩

/-- C3 (amended): for every multi-line input, totalLinks equals successCount
plus errorCount plus the number of comment lines (prefixed with a hash sign
or a double slash after trimming) among the non-blank lines: blank lines are
excluded from the total, but skipped comment lines are still counted in
totalLinks. -/
theorem C3_total_counts_amended (text : String) :
    (parseProxyLinks text).totalLinks =
      (parseProxyLinks text).successCount + (parseProxyLinks text).errorCount +
        (proxyLines text).countP
          (fun l => strStartsWith (jsTrim l) "#" || strStartsWith (jsTrim l) "//") := by
  have h1 := runLines_count (proxyLines text) 0 1
  have h2 : (proxyLines text).countP (fun l => jsTrim l == "" || strStartsWith (jsTrim l) "#" ||
      strStartsWith (jsTrim l) "//") =
      (proxyLines text).countP
        (fun l => strStartsWith (jsTrim l) "#" || strStartsWith (jsTrim l) "//") := by
    apply List.countP_congr
    intro l hl
    rw [proxyLines_not_blank text l hl]
    simp
  simp only [parseProxyLinks]
  omega

theorem truncate50_length (s : String) :
    (truncate50 s).length = if s.length > 50 then 53 else s.length := by
  unfold truncate50
  split
  · rename_i h
    show ((⟨s.data.take 50⟩ : String) ++ "...").data.length = _
    have : ((⟨s.data.take 50⟩ : String) ++ "...").data = s.data.take 50 ++ "...".data := rfl
    rw [this]
    have hs : s.length = s.data.length := rfl
    simp only [List.length_append, List.length_take, List.length_cons, List.length_nil]
    omega
  · rfl

/-- C4 (counterexample): a failing line of 51 characters is recorded as its
first 50 characters with an appended ellipsis, 53 characters in all — more
than the 50 the claim allows. -/
theorem C4_counterexample :
    (parseProxyLinks "aaaaaaaaaaaaaaaaaaaaaaaaaaaaaaaaaaaaaaaaaaaaaaaaaaa").errors.map
        (fun e => e.link.length) = [53] ∧
    ¬ (∀ e ∈ (parseProxyLinks "aaaaaaaaaaaaaaaaaaaaaaaaaaaaaaaaaaaaaaaaaaaaaaaaaaa").errors,
        e.link.length ≤ 50) := by
  refine ⟨rfl, by decide⟩

/-- C4 (amended): the text recorded in a batch error diagnostic is at most 53
characters: a line longer than 50 characters is truncated to its first 50
characters and a three-character ellipsis is appended; shorter lines are
recorded in full. -/
theorem C4_truncation_amended :
    (∀ text e, e ∈ (parseProxyLinks text).errors → e.link.length ≤ 53) ∧
    (∀ s, (truncate50 s).length = if s.length > 50 then 53 else s.length) := by
  constructor
  · intro text e he
    obtain ⟨j, _, _, h2⟩ := runLines_errors_spec (proxyLines text) 0 1 e he
    rw [h2, truncate50_length]
    split <;> omega
  · exact truncate50_length

/-- C4 (witness): the bound applied to the diagnostic recorded for a concrete
failing line. -/
theorem C4_witness :
    (⟨1, "foo", "Unsupported or invalid protocol"⟩ : ParseError).link.length ≤ 53 :=
  C4_truncation_amended.1 "foo" ⟨1, "foo", "Unsupported or invalid protocol"⟩ (by decide)

/-- C10: every batch error diagnostic carries as its line number the 1-based
position of the offending line within the sequence of non-blank lines (its
recorded text being the trimmed line, truncated); when no line of the input
is blank that sequence is the full line list, so the recorded number matches
the original position; and on a concrete input whose first line is blank the
error for the second original line is recorded with line number 1. -/
theorem C10_line_numbers :
    (∀ text e, e ∈ (parseProxyLinks text).errors →
        ∃ j, j < (proxyLines text).length ∧ e.lineNumber = j + 1 ∧
          e.link = truncate50 (jsTrim ((proxyLines text).getD j ""))) ∧
    (∀ text, (∀ l ∈ splitOnChar '\n' text.data, (jsTrim (⟨l⟩ : String) == "") = false) →
        proxyLines text = (splitOnChar '\n' text.data).map (fun l => (⟨l⟩ : String))) ∧
    (parseProxyLinks "\nnotalink").errors.map (fun e => e.lineNumber) = [1] := by
  refine ⟨?_, ?_, rfl⟩
  · intro text e he
    obtain ⟨j, hj, h1, h2⟩ := runLines_errors_spec (proxyLines text) 0 1 e he
    exact ⟨j, hj, by omega, h2⟩
  · intro text h
    unfold proxyLines
    apply List.filter_eq_self.mpr
    intro a ha
    obtain ⟨l, hl, rfl⟩ := List.mem_map.mp ha
    simpa [bne] using h l hl

/-- C10 (witness): the positional description applied to the diagnostic of a
concrete input whose first line is blank. -/
theorem C10_witness :
    ∃ j, j < (proxyLines "\nbadline").length ∧
      (⟨1, "badline", "Unsupported or invalid protocol"⟩ : ParseError).lineNumber = j + 1 ∧
      (⟨1, "badline", "Unsupported or invalid protocol"⟩ : ParseError).link =
        truncate50 (jsTrim ((proxyLines "\nbadline").getD j "")) :=
  C10_line_numbers.1 "\nbadline" ⟨1, "badline", "Unsupported or invalid protocol"⟩ (by decide)

/-! ### Helper lemmas about trimming, for the address normalizer -/

theorem dropWhile_head_not (p : Char → Bool) :
    ∀ (l : List Char) c t, l.dropWhile p = c :: t → p c = false := by
  intro l
  induction l with
  | nil => intro c t h; simp [List.dropWhile] at h
  | cons a l ih =>
    intro c t h
    rw [List.dropWhile_cons] at h
    split at h
    · exact ih c t h
    · rename_i ha
      obtain ⟨rfl, -⟩ := List.cons.injEq a l c t ▸ h
      simpa using ha

theorem dew_cases (p : Char → Bool) (c : Char) (rest : List Char) :
    dropEndWhile p (c :: rest) = [] ∨
      dropEndWhile p (c :: rest) = c :: dropEndWhile p rest := by
  simp only [dropEndWhile]
  split
  · exact Or.inl rfl
  · exact Or.inr rfl

theorem dew_head (p : Char → Bool) :
    ∀ (l : List Char) c t, dropEndWhile p l = c :: t → l.head? = some c := by
  intro l c t h
  cases l with
  | nil => simp [dropEndWhile] at h
  | cons a rest =>
    rcases dew_cases p a rest with h2 | h2
    · rw [h2] at h; exact absurd h (by simp)
    · rw [h2] at h
      obtain ⟨rfl, -⟩ := List.cons.injEq a (dropEndWhile p rest) c t ▸ h
      rfl

theorem trimChars_head_not (l : List Char) (c : Char) (t : List Char)
    (h : trimChars l = c :: t) : wsChar c = false := by
  unfold trimChars at h
  have h2 := dew_head wsChar _ c t h
  cases hd : l.dropWhile wsChar with
  | nil => rw [hd] at h2; exact absurd h2 (by simp)
  | cons a rest =>
    rw [hd] at h2
    obtain rfl : a = c := by simpa using h2
    exact dropWhile_head_not wsChar l a rest hd

theorem dew_idem (p : Char → Bool) :
    ∀ l, dropEndWhile p (dropEndWhile p l) = dropEndWhile p l := by
  intro l
  induction l with
  | nil => rfl
  | cons c rest ih =>
    by_cases hc : ((dropEndWhile p rest).isEmpty && p c) = true
    · have h : dropEndWhile p (c :: rest) = [] := by
        simp only [dropEndWhile]; rw [if_pos hc]
      rw [h]; rfl
    · have h : dropEndWhile p (c :: rest) = c :: dropEndWhile p rest := by
        simp only [dropEndWhile]; rw [if_neg hc]
      rw [h]
      have h2 : ((dropEndWhile p (dropEndWhile p rest)).isEmpty && p c) = false := by
        rw [ih]; simpa using hc
      simp only [dropEndWhile]
      rw [ih, if_neg hc]

theorem dropWhile_trimChars (l : List Char) :
    (trimChars l).dropWhile wsChar = trimChars l := by
  cases ht : trimChars l with
  | nil => rfl
  | cons c t =>
    rw [List.dropWhile_cons, if_neg (by simp [trimChars_head_not l c t ht])]

theorem trimChars_idem (l : List Char) : trimChars (trimChars l) = trimChars l := by
  conv_lhs => rw [trimChars, dropWhile_trimChars]
  rw [trimChars, dew_idem]

theorem dew_append (p : Char → Bool) (m : List Char) (hm : dropEndWhile p m = m)
    (hne : m ≠ []) : ∀ l, dropEndWhile p (l ++ m) = l ++ m := by
  intro l
  induction l with
  | nil => simpa using hm
  | cons c rest ih =>
    show dropEndWhile p (c :: (rest ++ m)) = c :: (rest ++ m)
    simp only [dropEndWhile]
    rw [ih, if_neg]
    simp only [Bool.and_eq_true, not_and]
    intro hempty
    exact absurd (by simpa using hempty) (by simp [hne])

theorem trimChars_append_suffix (x m : List Char) (hm1 : m.dropWhile wsChar = m)
    (hm2 : dropEndWhile wsChar m = m) (hne : m ≠ []) :
    trimChars (trimChars x ++ m) = trimChars x ++ m := by
  rw [trimChars]
  have hdrop : (trimChars x ++ m).dropWhile wsChar = trimChars x ++ m := by
    cases ht : trimChars x with
    | nil => simpa using hm1
    | cons c t =>
      show ((c :: t) ++ m).dropWhile wsChar = (c :: t) ++ m
      rw [List.cons_append, List.dropWhile_cons,
        if_neg (by simp [trimChars_head_not x c t ht])]
  rw [hdrop, dew_append wsChar m hm2 hne]

/-- C6: normalizeAddress appends /32 to a (trimmed) address containing
neither a slash nor a colon, appends /128 when it contains a colon and no
slash, returns it unchanged when a slash is present, maps the three listed
examples accordingly, and is idempotent on every string. -/
theorem C6_normalize_address :
    (∀ addr : String, jsTrim addr = addr →
        (('/' ∉ addr.data ∧ ':' ∉ addr.data) → normalizeAddress addr = addr ++ "/32") ∧
        (('/' ∉ addr.data ∧ ':' ∈ addr.data) → normalizeAddress addr = addr ++ "/128") ∧
        ('/' ∈ addr.data → normalizeAddress addr = addr)) ∧
    normalizeAddress "10.0.0.2" = "10.0.0.2/32" ∧
    normalizeAddress "fd00::2" = "fd00::2/128" ∧
    normalizeAddress "10.0.0.2/24" = "10.0.0.2/24" ∧
    (∀ addr : String, normalizeAddress (normalizeAddress addr) = normalizeAddress addr) := by
  refine ⟨?_, rfl, rfl, rfl, ?_⟩
  · intro addr h
    have hd : (jsTrim addr).data = addr.data := congrArg String.data h
    refine ⟨?_, ?_, ?_⟩
    · rintro ⟨h1, h2⟩
      unfold normalizeAddress
      rw [h]
      rw [if_neg (by simpa using h1), if_neg (by simpa using h2)]
    · rintro ⟨h1, h2⟩
      unfold normalizeAddress
      rw [h]
      rw [if_neg (by simpa using h1), if_pos (by simpa using h2)]
    · intro h1
      unfold normalizeAddress
      rw [h]
      rw [if_pos (by simpa using h1)]
  · intro addr
    unfold normalizeAddress
    dsimp only
    split
    · rename_i h1
      have ht : jsTrim (jsTrim addr) = jsTrim addr :=
        congrArg String.mk (trimChars_idem addr.data)
      rw [ht, if_pos (by simpa [ht] using h1)]
    · split
      · rename_i h1 h2
        have hdata : (jsTrim (jsTrim addr ++ "/128")).data =
            (jsTrim addr ++ "/128").data := by
          show trimChars (trimChars addr.data ++ "/128".data) = _
          rw [trimChars_append_suffix addr.data "/128".data (by decide) (by decide)
            (by decide)]
          rfl
        have ht : jsTrim (jsTrim addr ++ "/128") = jsTrim addr ++ "/128" := by
          cases hgen : jsTrim (jsTrim addr ++ "/128") with
          | mk d =>
            cases hgen2 : jsTrim addr ++ "/128" with
            | mk d2 =>
              congr 1
              have := hdata
              rw [hgen, hgen2] at this
              exact this
        rw [ht, if_pos]
        show ((jsTrim addr ++ "/128").data.contains '/') = true
        have : '/' ∈ (jsTrim addr ++ "/128").data := by
          show '/' ∈ (jsTrim addr).data ++ "/128".data
          exact List.mem_append_right _ (by decide)
        simpa using this
      · rename_i h1 h2
        have hdata : (jsTrim (jsTrim addr ++ "/32")).data =
            (jsTrim addr ++ "/32").data := by
          show trimChars (trimChars addr.data ++ "/32".data) = _
          rw [trimChars_append_suffix addr.data "/32".data (by decide) (by decide)
            (by decide)]
          rfl
        have ht : jsTrim (jsTrim addr ++ "/32") = jsTrim addr ++ "/32" := by
          cases hgen : jsTrim (jsTrim addr ++ "/32") with
          | mk d =>
            cases hgen2 : jsTrim addr ++ "/32" with
            | mk d2 =>
              congr 1
              have := hdata
              rw [hgen, hgen2] at this
              exact this
        rw [ht, if_pos]
        show ((jsTrim addr ++ "/32").data.contains '/') = true
        have : '/' ∈ (jsTrim addr ++ "/32").data := by
          show '/' ∈ (jsTrim addr).data ++ "/32".data
          exact List.mem_append_right _ (by decide)
        simpa using this

/-- C6 (witness): the trichotomy applied to the three example addresses. -/
theorem C6_witness :
    normalizeAddress "10.0.0.2" = "10.0.0.2" ++ "/32" ∧
    normalizeAddress "fd00::2" = "fd00::2" ++ "/128" ∧
    normalizeAddress "10.0.0.2/24" = "10.0.0.2/24" :=
  ⟨((C6_normalize_address.1 "10.0.0.2" (by decide)).1 (by decide)),
    ((C6_normalize_address.1 "fd00::2" (by decide)).2.1 (by decide)),
    ((C6_normalize_address.1 "10.0.0.2/24" (by decide)).2.2 (by decide))⟩

/-! ### Helper lemmas about the INI section machine -/

theorem sections_no_iface (lines : List String) :
    ∀ st : SecState, st.cur ≠ CurSection.iface → st.iface = [] →
      (∀ l ∈ lines, jsToLower (jsTrim l) ≠ "[interface]") →
      (lines.foldl sectionsStep st).iface = [] ∧
        (lines.foldl sectionsStep st).cur ≠ CurSection.iface := by
  induction lines with
  | nil => intro st h1 h2 _; exact ⟨h2, h1⟩
  | cons l rest ih =>
    intro st h1 h2 hl
    rw [List.foldl_cons]
    have hstep : (sectionsStep st l).cur ≠ CurSection.iface ∧
        (sectionsStep st l).iface = [] := by
      unfold sectionsStep
      dsimp only
      rw [if_neg (by simpa using hl l (List.mem_cons_self l rest))]
      split
      · split
        · exact ⟨by simp, by simpa using h2⟩
        · exact ⟨by simp, by simpa using h2⟩
      · split
        · exact ⟨h1, h2⟩
        · rename_i k v heq
          match hcur : st.cur with
          | CurSection.iface => exact absurd hcur h1
          | CurSection.peer => simp only [hcur]; exact ⟨by simp, by simpa using h2⟩
          | CurSection.nosec => simp only [hcur]; exact ⟨by decide, h2⟩
    exact ih (sectionsStep st l) hstep.1 hstep.2 (fun x hx => hl x (List.mem_cons_of_mem l hx))

theorem sections_no_peer (lines : List String) :
    ∀ st : SecState, st.cur ≠ CurSection.peer → st.peers = [] →
      (∀ l ∈ lines, jsToLower (jsTrim l) ≠ "[peer]") →
      (lines.foldl sectionsStep st).peers = [] ∧
        (lines.foldl sectionsStep st).cur ≠ CurSection.peer := by
  induction lines with
  | nil => intro st h1 h2 _; exact ⟨h2, h1⟩
  | cons l rest ih =>
    intro st h1 h2 hl
    rw [List.foldl_cons]
    have hstep : (sectionsStep st l).cur ≠ CurSection.peer ∧
        (sectionsStep st l).peers = [] := by
      unfold sectionsStep
      dsimp only
      split
      · exact ⟨by simp, by simpa using h2⟩
      · rw [if_neg (by simpa using hl l (List.mem_cons_self l rest))]
        split
        · exact ⟨h1, h2⟩
        · rename_i k v heq
          match hcur : st.cur with
          | CurSection.peer => exact absurd hcur h1
          | CurSection.iface => simp only [hcur]; exact ⟨by simp, by simpa using h2⟩
          | CurSection.nosec => simp only [hcur]; exact ⟨by decide, h2⟩
    exact ih (sectionsStep st l) hstep.1 hstep.2 (fun x hx => hl x (List.mem_cons_of_mem l hx))

/-- C7: parseAwgConfig fails, producing no endpoint, whenever the document
has no [Interface] header line, whenever the interface section carries no
(non-empty) private key, and whenever the document has no [Peer] header
line; and the concrete document consisting only of an [Interface] section
with one PrivateKey line fails with exactly the "No [Peer] section found"
diagnostic and no endpoint. -/
theorem C7_awg_failures :
    (∀ content, (∀ l ∈ awgLines content, jsToLower (jsTrim l) ≠ "[interface]") →
        (parseAwgConfig content).success = false ∧
          (parseAwgConfig content).endpoint = none ∧
          (parseAwgConfig content).errors = ["No [Interface] section found"]) ∧
    (∀ content, noneIfEmpty (kvGet (parseSections content).iface "privatekey") = none →
        (parseAwgConfig content).success = false ∧
          (parseAwgConfig content).endpoint = none) ∧
    (∀ content, (∀ l ∈ awgLines content, jsToLower (jsTrim l) ≠ "[peer]") →
        (parseAwgConfig content).success = false ∧
          (parseAwgConfig content).endpoint = none) ∧
    parseAwgConfig "[Interface]\nPrivateKey = X" =
      ⟨false, none, ["No [Peer] section found"]⟩ := by
  refine ⟨?_, ?_, ?_, rfl⟩
  · intro content hl
    have hif : (parseSections content).iface = [] := by
      unfold parseSections
      dsimp only
      exact (sections_no_iface (awgLines content) ⟨[], [], .nosec, []⟩ (by simp) rfl hl).1
    unfold parseAwgConfig
    rw [if_pos (by simp [hif])]
    exact ⟨rfl, rfl, rfl⟩
  · intro content hpk
    unfold parseAwgConfig
    dsimp only
    split
    · exact ⟨rfl, rfl⟩
    · rw [hpk]
      exact ⟨rfl, rfl⟩
  · intro content hl
    have hp : (parseSections content).peers = [] := by
      unfold parseSections
      dsimp only
      have h := sections_no_peer (awgLines content) ⟨[], [], .nosec, []⟩ (by simp) rfl hl
      rw [if_neg (by simp [h.2])]
      exact h.1
    unfold parseAwgConfig
    dsimp only
    split
    · exact ⟨rfl, rfl⟩
    · split
      · exact ⟨rfl, rfl⟩
      · rw [if_pos (by simp [hp])]
        exact ⟨rfl, rfl⟩

/-- C7 (witness): the fatal checks applied to concrete documents lacking the
[Interface] header, the private key, and the [Peer] header respectively. -/
theorem C7_witness :
    ((parseAwgConfig "x = 1").success = false ∧
      (parseAwgConfig "x = 1").endpoint = none ∧
      (parseAwgConfig "x = 1").errors = ["No [Interface] section found"]) ∧
    ((parseAwgConfig "[Interface]\nAddress = 10.0.0.2").success = false ∧
      (parseAwgConfig "[Interface]\nAddress = 10.0.0.2").endpoint = none) ∧
    ((parseAwgConfig "[Interface]\nPrivateKey = K").success = false ∧
      (parseAwgConfig "[Interface]\nPrivateKey = K").endpoint = none) :=
  ⟨C7_awg_failures.1 "x = 1" (by decide),
    C7_awg_failures.2.1 "[Interface]\nAddress = 10.0.0.2" (by decide),
    C7_awg_failures.2.2.1 "[Interface]\nPrivateKey = K" (by decide)⟩

/-- C8: with no outbounds and no endpoints the assembler emits exactly a
selector offering only direct (defaulting to direct), followed by the direct
outbound, and no endpoints key; with two outbounds tagged a and b it emits
the imported pair, a selector offering auto, a, b defaulting to auto, an
auto urltest racing exactly a and b, and the direct outbound, still with no
endpoints key; and in general the endpoints key is present iff at least one
endpoint was supplied. -/
theorem C8_build_config :
    (∀ tbl dns inb, (buildConfig tbl [] [] dns inb).outbounds =
        [ConfigOutbound.selector "proxy" ["direct"] "direct",
          ConfigOutbound.direct "direct"] ∧
      (buildConfig tbl [] [] dns inb).endpoints = none) ∧
    (∀ tbl dns inb (o1 o2 : GenericOutbound), o1.tag = "a" → o2.tag = "b" →
        (buildConfig tbl [o1, o2] [] dns inb).outbounds =
          [ConfigOutbound.imported o1, ConfigOutbound.imported o2,
            ConfigOutbound.selector "proxy" ["auto", "a", "b"] "auto",
            ConfigOutbound.urltest "auto" ["a", "b"]
              "https://www.gstatic.com/generate_204" "5m" 50,
            ConfigOutbound.direct "direct"] ∧
        (buildConfig tbl [o1, o2] [] dns inb).endpoints = none) ∧
    (∀ tbl obs eps dns inb,
        ((buildConfig tbl obs eps dns inb).endpoints.isSome ↔ eps ≠ [])) := by
  refine ⟨?_, ?_, ?_⟩
  · intro tbl dns inb
    exact ⟨rfl, rfl⟩
  · intro tbl dns inb o1 o2 h1 h2
    constructor
    · simp [buildConfig, h1, h2]
    · rfl
  · intro tbl obs eps dns inb
    unfold buildConfig
    dsimp only
    cases eps <;> simp

/-- C8 (witness): the two-outbound emission at concrete imported outbounds. -/
theorem C8_witness :
    (buildConfig (fun _ => []) [⟨"vless", "a"⟩, ⟨"vless", "b"⟩] [] DnsPreset.google
        InboundPreset.tun).outbounds =
      [ConfigOutbound.imported ⟨"vless", "a"⟩, ConfigOutbound.imported ⟨"vless", "b"⟩,
        ConfigOutbound.selector "proxy" ["auto", "a", "b"] "auto",
        ConfigOutbound.urltest "auto" ["a", "b"] "https://www.gstatic.com/generate_204" "5m" 50,
        ConfigOutbound.direct "direct"] ∧
    (buildConfig (fun _ => []) [⟨"vless", "a"⟩, ⟨"vless", "b"⟩] [] DnsPreset.google
        InboundPreset.tun).endpoints = none :=
  C8_build_config.2.1 (fun _ => []) DnsPreset.google InboundPreset.tun
    ⟨"vless", "a"⟩ ⟨"vless", "b"⟩ rfl rfl

end Singcraft
